import Mathlib

/-!
Verification of the Smartsheet → Fivetran connector (`src/connector.py`).

The `update` generator of the connector is shallowly embedded below.
Python dynamic values are modelled by `PyVal`; Python dicts that the code
builds incrementally (the normalized row record, the column mapping and the
`all_ids` state map) are modelled as association lists with an
insert-or-overwrite operation `dictSet` matching Python assignment
semantics (update in place keeps the key's position, a fresh key is
appended, which is Python's insertion-order behaviour).

Exception behaviour is modelled explicitly:
* `Row.bad` is a row value that is not a mapping, so `row.get('id')`
  raises before the id is added to `new_ids` (the row contributes nothing);
* `Cell.bad` is a cell value whose field access raises while iterating
  `row.get('cells', [])`, i.e. after the row id was already added to
  `new_ids` but before the upsert is yielded.

Wall-clock and network effects are parameters of the embedded `update`:
`parse` models `datetime.fromisoformat` (returning an epoch-second
timestamp or failing), `now` the current time in seconds on the same
clock, `sync_start` the ISO string computed at run start (line 88), and
`fetch` the per-sheet HTTP fetch (`Option.none` models a raised
request/HTTP error).
-/

set_option autoImplicit false

namespace Connector

/-- A dynamic Python scalar as it appears in rows and cells.  `PyVal.none`
models Python `None`, which `dict.get` returns for a missing key. -/
inductive PyVal where
  | none
  | str (s : String)
  | int (n : Int)
  | bool (b : Bool)
deriving DecidableEq, Repr

/-- Association-list lookup, modelling Python `d.get(k)` (returns `None`
when the key is absent). -/
def dictGet {α β : Type} [DecidableEq α] : List (α × β) → α → Option β
  | [], _ => Option.none
  | p :: rest, k => if p.1 = k then some p.2 else dictGet rest k

/-- Association-list insert-or-overwrite, modelling Python `d[k] = v`:
an existing key keeps its position and gets the new value, a fresh key is
appended (insertion order). -/
def dictSet {α β : Type} [DecidableEq α] : List (α × β) → α → β → List (α × β)
  | [], k, v => [(k, v)]
  | p :: rest, k, v => if p.1 = k then (k, v) :: rest else p :: dictSet rest k v

/-- `set.add` on the list representation of a Python set: append the
element unless it is already present. -/
def setAdd (s : List PyVal) (x : PyVal) : List PyVal :=
  if x ∈ s then s else s ++ [x]

/-- `set(l)` — deduplicate a list, keeping first occurrences. -/
def setOfList (l : List PyVal) : List PyVal := l.foldl setAdd []

/-- Python set difference `a - b` on the list representation. -/
def setDiff (a b : List PyVal) : List PyVal :=
  a.filter (fun x => decide (x ∉ b))

/-- A cell of a fetched row.  `Cell.bad` models a cell value whose field
access (`cell.get(...)`) raises; `Cell.cell` carries
`cell.get('columnId')` (`Option.none` when absent) and `cell.get('value')`. -/
inductive Cell where
  | bad
  | cell (columnId : Option Int) (value : PyVal)
deriving DecidableEq, Repr

/-- A row that is a mapping: the values of `row.get` for the id and the
four metadata keys (Python `None` when absent), and the `cells` list. -/
structure RowDict where
  id : PyVal
  rowNumber : PyVal
  expanded : PyVal
  createdAt : PyVal
  modifiedAt : PyVal
  cells : List Cell
deriving DecidableEq, Repr

/-- A fetched row.  `Row.bad` models a row value that is not a mapping,
so `row.get('id')` (line 138) raises before the id is recorded. -/
inductive Row where
  | bad
  | dict (rd : RowDict)
deriving DecidableEq, Repr

/-- The JSON body of one successful sheet fetch: `data.get("name")`,
`data.get('columns', [])` as (id, title) pairs, and `data.get('rows', [])`. -/
structure SheetData where
  name : Option String
  columns : List (Int × String)
  rows : List Row
deriving DecidableEq, Repr

/-- The persisted sync state: `state.get('sync_cursor')` and
`state.get('all_ids', {})` (sheet-id → list of row ids). -/
structure SyncState where
  sync_cursor : Option String
  all_ids : List (String × List PyVal)
deriving DecidableEq, Repr

/-- The connector configuration: `configuration.get('smartsheet_api_token')`
and `configuration.get("smartsheet_sheet_ids", "")`. -/
structure Config where
  smartsheet_api_token : Option String
  smartsheet_sheet_ids : String
deriving DecidableEq, Repr

/-- Operations yielded by `update`: `op.upsert(table, record)`,
`op.delete(table, {"id": id})` and `op.checkpoint(state)`. -/
inductive Op where
  | upsert (table : String) (record : List (String × PyVal))
  | delete (table : String) (id : PyVal)
  | checkpoint (sync_cursor : String) (all_ids : List (String × List PyVal))
deriving DecidableEq, Repr

/-- Python truthiness of an optional string (`if sync_cursor:`,
`if not api_token`): `None` and the empty string are falsy. -/
def truthyStr : Option String → Bool
  | Option.none => false
  | some s => decide (s ≠ "")

/-- `format_table_name` (line 26): lower-case and replace spaces by
underscores.  Character-level model of `sheet_name.lower().replace(" ", "_")`
(lowering never produces or consumes a space). -/
def format_table_name (sheet_name : String) : String :=
  String.mk (sheet_name.data.map (fun c =>
    let c' := c.toLower
    if c' = ' ' then '_' else c'))

/-- Split a character list at commas, modelling Python `raw.split(",")`
(which yields `[""]` on the empty string). -/
def splitCommas : List Char → List (List Char)
  | [] => [[]]
  | c :: rest =>
    let r := splitCommas rest
    if c = ',' then [] :: r
    else
      match r with
      | [] => [[c]]
      | g :: gs => (c :: g) :: gs

/-- Python `s.strip()`: drop leading and trailing whitespace. -/
def stripChars (l : List Char) : List Char :=
  ((l.dropWhile Char.isWhitespace).reverse.dropWhile Char.isWhitespace).reverse

/-- Lines 36/70: `[s.strip() for s in raw.split(",") if s.strip()]`. -/
def sheetIdsOf (raw : String) : List String :=
  (splitCommas raw.data).filterMap (fun l =>
    let t := stripChars l
    if t = [] then Option.none else some (String.mk t))

/-- Lines 75–84: the staleness / parse check on the stored cursor.
A falsy cursor skips the block; a cursor that fails to parse, or whose
age in full days (`timedelta.days`, i.e. floor division of the second
difference by 86400) is at least 7, is replaced by `None`. -/
def effectiveCursor (parse : String → Option Int) (now : Int) :
    Option String → Option String
  | Option.none => Option.none
  | some s =>
    if s = "" then some s
    else
      match parse s with
      | Option.none => Option.none
      | some ts => if 7 ≤ Int.fdiv (now - ts) 86400 then Option.none else some s

/-- Line 126: `{col['id']: col['title'] for col in data.get('columns', [])}`. -/
def mkMapping (d : SheetData) : List (Int × String) :=
  d.columns.foldl (fun m p => dictSet m p.1 p.2) []

/-- Line 119–120: the destination table name of a sheet,
`format_table_name(data.get("name", f"smartsheet_(sheet_id)"))`. -/
def tableNameOf (sheetId : String) (d : SheetData) : String :=
  format_table_name (d.name.getD ("smartsheet_" ++ sheetId))

/-- Line 129: `set(all_state_ids.get(sheet_id, []))`. -/
def prevIds (allIds : List (String × List PyVal)) (sheetId : String) : List PyVal :=
  setOfList ((dictGet allIds sheetId).getD [])

/-- The five fields written into `row_data` before the cell loop
(lines 140–146), in insertion order. -/
def baseRecord (rd : RowDict) : List (String × PyVal) :=
  [("id", rd.id), ("row_number", rd.rowNumber), ("expanded", rd.expanded),
   ("created_at", rd.createdAt), ("modified_at", rd.modifiedAt)]

/-- The cell loop (lines 149–154): for each cell, look the column id up in
the mapping and, when the resulting title is truthy (a non-empty string),
assign `row_data[column_name] = cell.get('value')`.  `Option.none` is the
whole-row exception (a `Cell.bad` raises out of the loop). -/
def normalizeCells (mapping : List (Int × String)) :
    List (String × PyVal) → List Cell → Option (List (String × PyVal))
  | rowData, [] => some rowData
  | _, Cell.bad :: _ => Option.none
  | rowData, Cell.cell cid v :: rest =>
    let rowData' :=
      match cid with
      | some i =>
        match dictGet mapping i with
        | some name => if name ≠ "" then dictSet rowData name v else rowData
        | Option.none => rowData
      | Option.none => rowData
    normalizeCells mapping rowData' rest

/-- One iteration of the row loop body (lines 137–164), up to the yield:
the first component is the id added to `new_ids` (`Option.none` when the
row raised before line 139), the second the record passed to `op.upsert`
(`Option.none` when the row raised after the id was added). -/
def processRow (mapping : List (Int × String)) :
    Row → Option PyVal × Option (List (String × PyVal))
  | Row.bad => (Option.none, Option.none)
  | Row.dict rd => (some rd.id, normalizeCells mapping (baseRecord rd) rd.cells)

/-- The accumulator step of the row loop: `new_ids` and the upserts
yielded so far. -/
def rowStep (mapping : List (Int × String)) (tableName : String)
    (acc : List PyVal × List Op) (r : Row) : List PyVal × List Op :=
  match processRow mapping r with
  | (some i, some rec) => (setAdd acc.1 i, acc.2 ++ [Op.upsert tableName rec])
  | (some i, Option.none) => (setAdd acc.1 i, acc.2)
  | (Option.none, _) => acc

/-- Lines 130–164: the row loop over `data.get('rows', [])`, starting from
`new_ids = set()` and no emitted operations. -/
def rowLoop (mapping : List (Int × String)) (tableName : String)
    (rows : List Row) : List PyVal × List Op :=
  rows.foldl (rowStep mapping tableName) ([], [])

/-- Lines 125–181: processing of one successfully fetched sheet.  Returns
the operations yielded for this sheet and the updated `all_state_ids`
(line 181 assigns `list(current_ids)` where line 167 sets
`current_ids = new_ids`).  Deletes (lines 173–178) run only when
`sync_cursor` is falsy. -/
def processSheet (syncCursorActive : Bool) (allStateIds : List (String × List PyVal))
    (sheetId : String) (data : SheetData) :
    List Op × List (String × List PyVal) :=
  let tableName := tableNameOf sheetId data
  let column_mapping := mkMapping data
  let previous_ids := prevIds allStateIds sheetId
  let nu := rowLoop column_mapping tableName data.rows
  let current_ids := nu.1
  let deletes :=
    if syncCursorActive then []
    else (setDiff previous_ids current_ids).map (fun i => Op.delete tableName i)
  (nu.2 ++ deletes, dictSet allStateIds sheetId current_ids)

/-- Lines 99–181: the sheet loop.  A failed fetch (`Option.none`) hits the
`continue` on line 123: no operations, state untouched. -/
def runSheets (syncCursorActive : Bool) (fetch : String → Option SheetData) :
    List String → List Op × List (String × List PyVal) →
    List Op × List (String × List PyVal)
  | [], acc => acc
  | sheetId :: rest, acc =>
    match fetch sheetId with
    | Option.none => runSheets syncCursorActive fetch rest acc
    | some d =>
      let r := processSheet syncCursorActive acc.2 sheetId d
      runSheets syncCursorActive fetch rest (acc.1 ++ r.1, r.2)

/-- The `update` generator (lines 62–187).  A raised `ValueError` is the
`Except.error` branch; a normal run returns the full yielded operation
sequence in order. -/
def update (parse : String → Option Int) (now : Int) (sync_start : String)
    (fetch : String → Option SheetData)
    (configuration : Config) (state : SyncState) : Except String (List Op) :=
  let api_token := configuration.smartsheet_api_token
  let sheet_ids := sheetIdsOf configuration.smartsheet_sheet_ids
  let sync_cursor := effectiveCursor parse now state.sync_cursor
  if truthyStr api_token = false ∨ sheet_ids = [] then
    Except.error "API token and sheet IDs are required."
  else
    let all_state_ids := state.all_ids
    let r := runSheets (truthyStr sync_cursor) fetch sheet_ids ([], all_state_ids)
    Except.ok (r.1 ++ [Op.checkpoint sync_start r.2])

/-! Characterization vocabulary: closed forms for what the loops compute,
used to state the claims.  Each is proved equal to the corresponding loop. -/

/-- The effect of one row on `new_ids`: `Row.bad` raises before line 139,
a mapping row always contributes its id. -/
def obsStep (ids : List PyVal) : Row → List PyVal
  | Row.bad => ids
  | Row.dict rd => setAdd ids rd.id

/-- The set of row ids observed by the row loop (`new_ids` at line 166). -/
def observedIds (rows : List Row) : List PyVal := rows.foldl obsStep []

/-- The records actually upserted: one per row whose processing reached
the `yield` on line 157. -/
def rowRecords (mapping : List (Int × String)) (rows : List Row) :
    List (List (String × PyVal)) :=
  rows.filterMap (fun r => (processRow mapping r).2)

/-- The upsert operations of one sheet, in row order. -/
def upsertOps (mapping : List (Int × String)) (tableName : String)
    (rows : List Row) : List Op :=
  (rowRecords mapping rows).map (fun rec => Op.upsert tableName rec)

/-- The ids carried by the delete operations of an operation list. -/
def deleteIdsOf (ops : List Op) : List PyVal :=
  ops.filterMap (fun o =>
    match o with
    | Op.delete _ i => some i
    | _ => Option.none)

def isUpsert : Op → Bool
  | Op.upsert _ _ => true
  | _ => false

def isDelete : Op → Bool
  | Op.delete _ _ => true
  | _ => false

def isCheckpoint : Op → Bool
  | Op.checkpoint _ _ => true
  | _ => false

def countCheckpoints (ops : List Op) : Nat := (ops.filter isCheckpoint).length

/-- The (name, value) pairs contributed by the cell loop: one per cell
whose column id resolves in the mapping to a truthy (non-empty) title. -/
def cellEntries (mapping : List (Int × String)) (cells : List Cell) :
    List (String × PyVal) :=
  cells.filterMap (fun c =>
    match c with
    | Cell.bad => Option.none
    | Cell.cell cid v =>
      match cid with
      | some i =>
        match dictGet mapping i with
        | some name => if name ≠ "" then some (name, v) else Option.none
        | Option.none => Option.none
      | Option.none => Option.none)

/-- The field names `row_data` holds before the cell loop. -/
def reservedFields : List String :=
  ["id", "row_number", "expanded", "created_at", "modified_at"]

/-- Modelled from the spec: the spec's mode determination, "the run is
incremental if a prior cursor exists and is no older than 7 days" — the
cursor parses and its age is at most 7 days.  Stated for comparison with
the code's `effectiveCursor`. -/
def specIncrementalMode (parse : String → Option Int) (now : Int) :
    Option String → Bool
  | Option.none => false
  | some s =>
    match parse s with
    | Option.none => false
    | some ts => decide (now - ts ≤ 7 * 86400)

/-! Helper lemmas about the dictionary and set models. -/

theorem dictGet_dictSet_self {α β : Type} [DecidableEq α]
    (d : List (α × β)) (k : α) (v : β) :
    dictGet (dictSet d k v) k = some v := by
  induction d with
  | nil => simp [dictGet, dictSet]
  | cons p rest ih =>
    by_cases h : p.1 = k
    · simp [dictSet, h, dictGet]
    · simp [dictSet, h, dictGet, ih]

theorem dictGet_dictSet_ne {α β : Type} [DecidableEq α]
    (d : List (α × β)) (k k' : α) (v : β) (h : k' ≠ k) :
    dictGet (dictSet d k v) k' = dictGet d k' := by
  induction d with
  | nil => simp [dictGet, dictSet, Ne.symm h]
  | cons p rest ih =>
    by_cases hp : p.1 = k
    · subst hp
      simp [dictSet, dictGet, Ne.symm h]
    · simp [dictSet, hp, dictGet, ih]

theorem dictSet_eq_append {α β : Type} [DecidableEq α]
    (d : List (α × β)) (k : α) (v : β) (h : k ∉ d.map Prod.fst) :
    dictSet d k v = d ++ [(k, v)] := by
  induction d with
  | nil => rfl
  | cons p rest ih =>
    simp only [List.map_cons, List.mem_cons, not_or] at h
    simp [dictSet, Ne.symm h.1, ih h.2]

theorem mem_setAdd {x y : PyVal} {s : List PyVal} :
    x ∈ setAdd s y ↔ x ∈ s ∨ x = y := by
  by_cases h : y ∈ s
  · simp only [setAdd, if_pos h]
    constructor
    · exact Or.inl
    · rintro (hx | rfl) <;> assumption
  · simp [setAdd, if_neg h]

theorem mem_setDiff {x : PyVal} {a b : List PyVal} :
    x ∈ setDiff a b ↔ x ∈ a ∧ x ∉ b := by
  simp [setDiff]

theorem setDiff_nil (a : List PyVal) : setDiff a [] = a := by
  simp [setDiff]

/-! Helper lemmas about the row loop. -/

theorem observedIds_from (rows : List Row) :
    ∀ init : List PyVal, ∀ x ∈ init, x ∈ rows.foldl obsStep init := by
  induction rows with
  | nil => intro init x hx; simpa using hx
  | cons r rest ih =>
    intro init x hx
    simp only [List.foldl_cons]
    apply ih
    cases r with
    | bad => exact hx
    | dict rd => exact mem_setAdd.mpr (Or.inl hx)

theorem mem_observedIds_of_mem {rd : RowDict} (rows : List Row)
    (h : Row.dict rd ∈ rows) : rd.id ∈ observedIds rows := by
  suffices H : ∀ init : List PyVal, rd.id ∈ rows.foldl obsStep init from H []
  induction rows with
  | nil => cases h
  | cons r rest ih =>
    intro init
    simp only [List.foldl_cons]
    rcases List.mem_cons.mp h with hr | hr
    · subst hr
      exact observedIds_from rest _ _ (mem_setAdd.mpr (Or.inr rfl))
    · exact ih hr (obsStep init r)

theorem rowLoop_from (mapping : List (Int × String)) (tableName : String)
    (rows : List Row) : ∀ (ids : List PyVal) (ops : List Op),
    rows.foldl (rowStep mapping tableName) (ids, ops)
      = (rows.foldl obsStep ids, ops ++ upsertOps mapping tableName rows) := by
  induction rows with
  | nil => intro ids ops; simp [upsertOps, rowRecords]
  | cons r rest ih =>
    intro ids ops
    simp only [List.foldl_cons]
    cases r with
    | bad =>
      rw [show rowStep mapping tableName (ids, ops) Row.bad = (ids, ops) from rfl]
      rw [ih ids ops]
      simp [obsStep, upsertOps, rowRecords, processRow]
    | dict rd =>
      cases hn : normalizeCells mapping (baseRecord rd) rd.cells with
      | none =>
        rw [show rowStep mapping tableName (ids, ops) (Row.dict rd)
              = (setAdd ids rd.id, ops) by simp [rowStep, processRow, hn]]
        rw [ih]
        simp [obsStep, upsertOps, rowRecords, processRow, hn]
      | some rec =>
        rw [show rowStep mapping tableName (ids, ops) (Row.dict rd)
              = (setAdd ids rd.id, ops ++ [Op.upsert tableName rec]) by
            simp [rowStep, processRow, hn]]
        rw [ih]
        simp [obsStep, upsertOps, rowRecords, processRow, hn]

theorem rowLoop_eq (mapping : List (Int × String)) (tableName : String)
    (rows : List Row) :
    rowLoop mapping tableName rows
      = (observedIds rows, upsertOps mapping tableName rows) := by
  simpa [rowLoop, observedIds] using rowLoop_from mapping tableName rows [] []

/-- Closed form of one sheet's processing. -/
theorem processSheet_eq (active : Bool) (allIds : List (String × List PyVal))
    (sheetId : String) (d : SheetData) :
    processSheet active allIds sheetId d
      = (upsertOps (mkMapping d) (tableNameOf sheetId d) d.rows
           ++ (if active then []
               else (setDiff (prevIds allIds sheetId) (observedIds d.rows)).map
                 (fun i => Op.delete (tableNameOf sheetId d) i)),
         dictSet allIds sheetId (observedIds d.rows)) := by
  simp [processSheet, rowLoop_eq]

/-! Helper lemmas about operation extraction. -/

theorem deleteIdsOf_append (a b : List Op) :
    deleteIdsOf (a ++ b) = deleteIdsOf a ++ deleteIdsOf b := by
  simp [deleteIdsOf]

theorem deleteIdsOf_upsertOps (mapping : List (Int × String)) (tableName : String)
    (rows : List Row) : deleteIdsOf (upsertOps mapping tableName rows) = [] := by
  simp [deleteIdsOf, upsertOps, List.filterMap_map]

theorem deleteIdsOf_map_delete (tableName : String) (l : List PyVal) :
    deleteIdsOf (l.map (fun i => Op.delete tableName i)) = l := by
  induction l with
  | nil => rfl
  | cons x xs ih => simpa [deleteIdsOf, List.filterMap_cons] using ih

theorem filter_isCheckpoint_upsertOps (mapping : List (Int × String))
    (tableName : String) (rows : List Row) :
    (upsertOps mapping tableName rows).filter isCheckpoint = [] := by
  simp only [List.filter_eq_nil_iff, upsertOps]
  intro a ha
  rcases List.mem_map.mp ha with ⟨rec, _, rfl⟩
  exact fun h => nomatch h

theorem filter_isCheckpoint_map_delete (tableName : String) (l : List PyVal) :
    ((l.map (fun i => Op.delete tableName i)).filter isCheckpoint) = [] := by
  simp only [List.filter_eq_nil_iff]
  intro a ha
  rcases List.mem_map.mp ha with ⟨i, _, rfl⟩
  exact fun h => nomatch h

theorem filter_isCheckpoint_processSheet (active : Bool)
    (allIds : List (String × List PyVal)) (sheetId : String) (d : SheetData) :
    ((processSheet active allIds sheetId d).1.filter isCheckpoint) = [] := by
  rw [processSheet_eq]
  simp only [List.filter_append, filter_isCheckpoint_upsertOps]
  cases active with
  | true => simp
  | false => simp [filter_isCheckpoint_map_delete]

/-! Helper lemmas about the sheet loop. -/

theorem runSheets_filter_isCheckpoint (active : Bool)
    (fetch : String → Option SheetData) (ids : List String) :
    ∀ acc : List Op × List (String × List PyVal),
    ((runSheets active fetch ids acc).1.filter isCheckpoint)
      = acc.1.filter isCheckpoint := by
  induction ids with
  | nil => intro acc; rfl
  | cons s rest ih =>
    intro acc
    cases hf : fetch s with
    | none => simp [runSheets, hf, ih]
    | some d =>
      simp [runSheets, hf, ih, List.filter_append, filter_isCheckpoint_processSheet]

theorem runSheets_skip (active : Bool) (fetch : String → Option SheetData)
    (s : String) (hf : fetch s = Option.none) (xs : List String) :
    ∀ (ys : List String) (acc : List Op × List (String × List PyVal)),
    runSheets active fetch (xs ++ s :: ys) acc = runSheets active fetch (xs ++ ys) acc := by
  induction xs with
  | nil => intro ys acc; simp [runSheets, hf]
  | cons x rest ih =>
    intro ys acc
    cases hx : fetch x with
    | none => simp [runSheets, hx, ih]
    | some d => simp [runSheets, hx, ih]

theorem runSheets_dictGet_of_not_mem (active : Bool)
    (fetch : String → Option SheetData) (s : String) (ids : List String)
    (h : s ∉ ids) :
    ∀ acc : List Op × List (String × List PyVal),
    dictGet (runSheets active fetch ids acc).2 s = dictGet acc.2 s := by
  induction ids with
  | nil => intro acc; rfl
  | cons x rest ih =>
    simp only [List.mem_cons, not_or] at h
    intro acc
    cases hx : fetch x with
    | none => simp [runSheets, hx, ih h.2]
    | some d =>
      simp only [runSheets, hx, ih h.2]
      rw [processSheet_eq]
      exact dictGet_dictSet_ne _ _ _ _ h.1

/-! Helper lemmas about the cursor check. -/

theorem effectiveCursor_idem (parse : String → Option Int) (now : Int)
    (c : Option String) :
    effectiveCursor parse now (effectiveCursor parse now c)
      = effectiveCursor parse now c := by
  cases c with
  | none => rfl
  | some s =>
    by_cases hs : s = ""
    · simp [effectiveCursor, hs]
    · cases hp : parse s with
      | none => simp [effectiveCursor, hs, hp]
      | some ts =>
        by_cases hd : 7 ≤ Int.fdiv (now - ts) 86400
        · simp [effectiveCursor, hs, hp, hd]
        · simp [effectiveCursor, hs, hp, hd]

/-! Helper lemmas about cell normalization. -/

theorem normalizeCells_none_of_bad (mapping : List (Int × String)) :
    ∀ (cells : List Cell) (rec : List (String × PyVal)),
    Cell.bad ∈ cells → normalizeCells mapping rec cells = Option.none := by
  intro cells
  induction cells with
  | nil => intro rec h; cases h
  | cons c rest ih =>
    intro rec h
    cases c with
    | bad => rfl
    | cell cid v =>
      rcases List.mem_cons.mp h with hc | hc
      · cases hc
      · simp only [normalizeCells]
        exact ih _ hc

theorem normalizeCells_of_good (mapping : List (Int × String)) :
    ∀ (cells : List Cell) (rec : List (String × PyVal)),
    Cell.bad ∉ cells →
    ((cellEntries mapping cells).map Prod.fst).Nodup →
    (∀ n ∈ (cellEntries mapping cells).map Prod.fst, n ∉ rec.map Prod.fst) →
    normalizeCells mapping rec cells = some (rec ++ cellEntries mapping cells) := by
  intro cells
  induction cells with
  | nil => intro rec _ _ _; simp [normalizeCells, cellEntries]
  | cons c rest ih =>
    intro rec hbad hnodup hfresh
    simp only [List.mem_cons, not_or] at hbad
    cases c with
    | bad => exact absurd rfl hbad.1
    | cell cid v =>
      cases cid with
      | none =>
        have he : cellEntries mapping (Cell.cell Option.none v :: rest)
            = cellEntries mapping rest := by simp [cellEntries]
        rw [he] at hnodup hfresh
        simp only [normalizeCells]
        rw [he, ih rec hbad.2 hnodup hfresh]
      | some i =>
        cases hm : dictGet mapping i with
        | none =>
          have he : cellEntries mapping (Cell.cell (some i) v :: rest)
              = cellEntries mapping rest := by simp [cellEntries, hm]
          rw [he] at hnodup hfresh
          simp only [normalizeCells, hm]
          rw [he, ih rec hbad.2 hnodup hfresh]
        | some name =>
          by_cases hne : name = ""
          · subst hne
            have he : cellEntries mapping (Cell.cell (some i) v :: rest)
                = cellEntries mapping rest := by simp [cellEntries, hm]
            rw [he] at hnodup hfresh
            simp only [normalizeCells, hm]
            rw [if_neg (fun h => h rfl), he, ih rec hbad.2 hnodup hfresh]
          · have he : cellEntries mapping (Cell.cell (some i) v :: rest)
                = (name, v) :: cellEntries mapping rest := by
              simp [cellEntries, hm, hne]
            rw [he] at hnodup hfresh
            simp only [List.map_cons, List.nodup_cons] at hnodup
            have hfr : name ∉ rec.map Prod.fst := hfresh name (by simp)
            have hfresh' : ∀ n ∈ (cellEntries mapping rest).map Prod.fst,
                n ∉ (rec ++ [(name, v)]).map Prod.fst := by
              intro n hn
              simp only [List.map_append, List.mem_append, List.map_cons,
                List.map_nil, List.mem_singleton, not_or]
              refine ⟨hfresh n (by simp [hn]), ?_⟩
              intro hcon
              exact hnodup.1 (hcon ▸ hn)
            simp only [normalizeCells, hm]
            rw [if_pos hne, dictSet_eq_append rec name v hfr,
              ih (rec ++ [(name, v)]) hbad.2 hnodup.2 hfresh', he]
            simp

/-! The claims. -/

/-- C1: the claim says that in incremental mode the recorded per-sheet ID
state is `previous ∪ observed` (monotonic growth).  The code instead
replaces the state with the observed set (`current_ids = new_ids`,
line 167), even though its own log line 170 says "merged if incremental".
Evaluated at a failing input: incremental run (fresh cursor), previous
state `{s1: [1]}`, fetch returns one row with id 2.  The checkpointed set
is `[2]`: id 1 is dropped, so `current ⊇ previous` fails; no delete is
emitted (that part of the claim holds). -/
theorem C1_code_behavior :
    update (fun s => if s = "c" then some 0 else Option.none) 0 "start"
      (fun s => if s = "s1" then
          some ⟨some "S1", [],
            [Row.dict ⟨PyVal.int 2, PyVal.none, PyVal.none, PyVal.none,
              PyVal.none, []⟩]⟩
        else Option.none)
      ⟨some "t", "s1"⟩ ⟨some "c", [("s1", [PyVal.int 1])]⟩
    = Except.ok [Op.upsert "s1"
        [("id", PyVal.int 2), ("row_number", PyVal.none),
         ("expanded", PyVal.none), ("created_at", PyVal.none),
         ("modified_at", PyVal.none)],
        Op.checkpoint "start" [("s1", [PyVal.int 2])]]
    ∧ PyVal.int 1 ∉ [PyVal.int 2] :=
  ⟨rfl, by decide⟩

/-- C2: in full mode (falsy cursor), for any previous state and fetched
sheet, the emitted delete ids are exactly `previous − observed`, the
recorded state entry becomes exactly the observed set, no deleted id is
in the recorded set, an empty fetched row list deletes every previously
known id, and an absent previous entry yields no deletes. -/
theorem C2_full_mode_delete_completeness (allIds : List (String × List PyVal))
    (sheetId : String) (d : SheetData) :
    deleteIdsOf (processSheet false allIds sheetId d).1
        = setDiff (prevIds allIds sheetId) (observedIds d.rows)
    ∧ dictGet (processSheet false allIds sheetId d).2 sheetId
        = some (observedIds d.rows)
    ∧ ((setDiff (prevIds allIds sheetId) (observedIds d.rows)).all
        (fun x => decide (x ∉ observedIds d.rows)) = true)
    ∧ deleteIdsOf (processSheet false allIds sheetId { d with rows := [] }).1
        = prevIds allIds sheetId
    ∧ deleteIdsOf (processSheet false [] sheetId d).1 = [] := by
  refine ⟨?_, ?_, ?_, ?_, ?_⟩
  · rw [processSheet_eq]
    simp [deleteIdsOf_append, deleteIdsOf_upsertOps, deleteIdsOf_map_delete]
  · rw [processSheet_eq]
    exact dictGet_dictSet_self _ _ _
  · simp only [List.all_eq_true, decide_eq_true_eq]
    intro x hx
    exact (mem_setDiff.mp hx).2
  · rw [processSheet_eq]
    simp [deleteIdsOf_append, deleteIdsOf_upsertOps, deleteIdsOf_map_delete,
      observedIds, setDiff_nil]
  · rw [processSheet_eq]
    simp [deleteIdsOf_append, deleteIdsOf_upsertOps, deleteIdsOf_map_delete,
      prevIds, dictGet, setOfList, setDiff]

/-- C7: the operations of one sheet are exactly its upserts (in row order)
followed by its deletes, and the delete block is empty whenever the run is
incremental (cursor active): upserts always precede deletes and deletes
are only emitted in full mode. -/
theorem C7_upserts_precede_deletes (active : Bool)
    (allIds : List (String × List PyVal)) (sheetId : String) (d : SheetData) :
    (processSheet active allIds sheetId d).1
      = upsertOps (mkMapping d) (tableNameOf sheetId d) d.rows
        ++ (if active then []
            else (setDiff (prevIds allIds sheetId) (observedIds d.rows)).map
              (fun i => Op.delete (tableNameOf sheetId d) i))
    ∧ (upsertOps (mkMapping d) (tableNameOf sheetId d) d.rows).all isUpsert = true
    ∧ ((setDiff (prevIds allIds sheetId) (observedIds d.rows)).map
        (fun i => Op.delete (tableNameOf sheetId d) i)).all isDelete = true := by
  refine ⟨by rw [processSheet_eq], ?_, ?_⟩
  · simp only [List.all_eq_true, upsertOps]
    intro a ha
    rcases List.mem_map.mp ha with ⟨rec, _, rfl⟩
    rfl
  · simp only [List.all_eq_true]
    intro a ha
    rcases List.mem_map.mp ha with ⟨i, _, rfl⟩
    rfl

/-- C3 counterexample: the claim says a cursor "no older than 7 days"
gives incremental mode.  A cursor whose age is exactly 7 days
(604800 seconds) is no older than 7 days, so the claim predicts an
incremental run (the spec-side mode, first conjunct) — but the code's
check is `(now - last_sync).days >= 7`, which fires at exactly 7 days
(second conjunct), and the run performs full-mode delete detection: it
emits a delete for the previously known id 1 (third conjunct). -/
theorem C3_counterexample :
    specIncrementalMode (fun s => if s = "c" then some 0 else Option.none)
        604800 (some "c") = true
    ∧ truthyStr (effectiveCursor (fun s => if s = "c" then some 0 else Option.none)
        604800 (some "c")) = false
    ∧ update (fun s => if s = "c" then some 0 else Option.none) 604800 "start"
        (fun t => if t = "a" then some ⟨some "A", [], []⟩ else Option.none)
        ⟨some "t", "a"⟩ ⟨some "c", [("a", [PyVal.int 1])]⟩
      = Except.ok [Op.delete "a" (PyVal.int 1), Op.checkpoint "start" [("a", [])]] :=
  ⟨rfl, rfl, rfl⟩

/-- C3 (amended): the run's behaviour depends on the stored cursor only
through its effective value, so a stale (7 or more full days old),
unparsable or absent cursor all behave identically (full mode, delete
detection active), and the determination is made once from the state and
applied uniformly; the run is incremental exactly when the stored cursor
is a non-empty string that parses and whose age in full days
(`timedelta.days`) is strictly less than 7. -/
theorem C3_mode_determination (parse : String → Option Int) (now : Int)
    (c : Option String) (sync_start : String) (fetch : String → Option SheetData)
    (cfg : Config) (allIds : List (String × List PyVal)) :
    update parse now sync_start fetch cfg ⟨c, allIds⟩
      = update parse now sync_start fetch cfg ⟨effectiveCursor parse now c, allIds⟩
    ∧ (truthyStr (effectiveCursor parse now c) = true
        ↔ ∃ s ts, c = some s ∧ s ≠ "" ∧ parse s = some ts
            ∧ Int.fdiv (now - ts) 86400 < 7) := by
  constructor
  · simp only [update, effectiveCursor_idem]
  · cases c with
    | none => simp [effectiveCursor, truthyStr]
    | some s =>
      by_cases hs : s = ""
      · subst hs
        simp [effectiveCursor, truthyStr]
      · cases hp : parse s with
        | none =>
          simp only [effectiveCursor, if_neg hs, hp, truthyStr]
          constructor
          · intro h; cases h
          · rintro ⟨s', ts, hss, -, hpp, -⟩
            rw [Option.some_inj.mp hss] at hp
            rw [hp] at hpp
            cases hpp
        | some ts =>
          by_cases hd : 7 ≤ Int.fdiv (now - ts) 86400
          · simp only [effectiveCursor, if_neg hs, hp, if_pos hd, truthyStr]
            constructor
            · intro h; cases h
            · rintro ⟨s', ts', hss, -, hpp, hlt⟩
              rw [Option.some_inj.mp hss] at hp
              rw [hp] at hpp
              rw [← Option.some_inj.mp hpp] at hlt
              omega
          · simp only [effectiveCursor, if_neg hs, hp, if_neg hd, truthyStr,
              decide_eq_true_eq]
            constructor
            · intro _
              exact ⟨s, ts, rfl, hs, hp, by omega⟩
            · intro _
              exact hs

/-- C9: a falsy (missing or empty) API token, or an empty sheet-id list
after splitting on commas and stripping whitespace, makes `update` raise
the configuration `ValueError`: no upsert, delete or checkpoint is
emitted, and the outcome does not depend on the fetch — no fetch is
attempted. -/
theorem C9_config_error (parse : String → Option Int) (now : Int)
    (sync_start : String) (fetch fetch2 : String → Option SheetData)
    (cfg : Config) (state : SyncState)
    (h : truthyStr cfg.smartsheet_api_token = false
        ∨ sheetIdsOf cfg.smartsheet_sheet_ids = []) :
    update parse now sync_start fetch cfg state
        = Except.error "API token and sheet IDs are required."
    ∧ update parse now sync_start fetch cfg state
        = update parse now sync_start fetch2 cfg state := by
  have h1 : ∀ f : String → Option SheetData,
      update parse now sync_start f cfg state
        = Except.error "API token and sheet IDs are required." := by
    intro f
    simp only [update, if_pos h]
  exact ⟨h1 fetch, (h1 fetch).trans (h1 fetch2).symm⟩

/-- C9 witness: a configuration with a token but an id list that is empty
after splitting and stripping (`" , "`), at concrete inputs. -/
theorem C9_config_error_witness :
    update (fun _ => Option.none) 0 "start" (fun _ => Option.none)
        ⟨some "t", " , "⟩ ⟨Option.none, []⟩
        = Except.error "API token and sheet IDs are required."
    ∧ update (fun _ => Option.none) 0 "start" (fun _ => Option.none)
        ⟨some "t", " , "⟩ ⟨Option.none, []⟩
        = update (fun _ => Option.none) 0 "start"
            (fun s => some ⟨some s, [], []⟩) ⟨some "t", " , "⟩ ⟨Option.none, []⟩ :=
  C9_config_error (fun _ => Option.none) 0 "start" (fun _ => Option.none)
    (fun s => some ⟨some s, [], []⟩) ⟨some "t", " , "⟩ ⟨Option.none, []⟩
    (Or.inr (by decide))

/-- C4: when the fetch of one sheet fails, that sheet is skipped entirely:
the run computes exactly what it would with that sheet removed from the
list, the sheet's previous `all_ids` entry is unchanged in the final
state, and `update` still ends in the single terminal checkpoint built
from the remaining sheets. -/
theorem C4_fetch_failure_isolated (active : Bool)
    (fetch : String → Option SheetData) (s : String) (xs ys : List String)
    (ops0 : List Op) (allIds : List (String × List PyVal))
    (parse : String → Option Int) (now : Int) (sync_start : String)
    (cfg : Config) (state : SyncState)
    (hf : fetch s = Option.none) (hx : s ∉ xs) (hy : s ∉ ys)
    (htok : truthyStr cfg.smartsheet_api_token = true)
    (hids : sheetIdsOf cfg.smartsheet_sheet_ids = xs ++ s :: ys) :
    runSheets active fetch (xs ++ s :: ys) (ops0, allIds)
        = runSheets active fetch (xs ++ ys) (ops0, allIds)
    ∧ dictGet (runSheets active fetch (xs ++ s :: ys) (ops0, allIds)).2 s
        = dictGet allIds s
    ∧ update parse now sync_start fetch cfg state
        = Except.ok
            ((runSheets (truthyStr (effectiveCursor parse now state.sync_cursor))
                fetch (xs ++ ys) ([], state.all_ids)).1
              ++ [Op.checkpoint sync_start
                  (runSheets (truthyStr (effectiveCursor parse now state.sync_cursor))
                    fetch (xs ++ ys) ([], state.all_ids)).2]) := by
  have hskip := runSheets_skip active fetch s hf xs ys (ops0, allIds)
  refine ⟨hskip, ?_, ?_⟩
  · rw [hskip]
    exact runSheets_dictGet_of_not_mem active fetch s (xs ++ ys)
      (by simp [List.mem_append, hx, hy]) _
  · have hcond : ¬(truthyStr cfg.smartsheet_api_token = false
        ∨ sheetIdsOf cfg.smartsheet_sheet_ids = []) := by
      rw [htok, hids]
      simp
    simp only [update, if_neg hcond]
    rw [hids, runSheets_skip _ fetch s hf xs ys _]

/-- C4 witness: sheets `a,b,c` with the fetch of `b` failing, at concrete
inputs. -/
theorem C4_fetch_failure_isolated_witness :
    runSheets false (fun t => if t = "b" then Option.none else some ⟨some "N", [], []⟩)
        (["a"] ++ "b" :: ["c"]) ([], [("b", [PyVal.int 9])])
      = runSheets false (fun t => if t = "b" then Option.none else some ⟨some "N", [], []⟩)
          (["a"] ++ ["c"]) ([], [("b", [PyVal.int 9])])
    ∧ dictGet (runSheets false
          (fun t => if t = "b" then Option.none else some ⟨some "N", [], []⟩)
          (["a"] ++ "b" :: ["c"]) ([], [("b", [PyVal.int 9])])).2 "b"
        = dictGet [("b", [PyVal.int 9])] "b"
    ∧ update (fun _ => Option.none) 0 "start"
        (fun t => if t = "b" then Option.none else some ⟨some "N", [], []⟩)
        ⟨some "t", "a,b,c"⟩ ⟨Option.none, [("b", [PyVal.int 9])]⟩
      = Except.ok
          ((runSheets (truthyStr (effectiveCursor (fun _ => Option.none) 0 Option.none))
              (fun t => if t = "b" then Option.none else some ⟨some "N", [], []⟩)
              (["a"] ++ ["c"]) ([], [("b", [PyVal.int 9])])).1
            ++ [Op.checkpoint "start"
                (runSheets (truthyStr (effectiveCursor (fun _ => Option.none) 0 Option.none))
                  (fun t => if t = "b" then Option.none else some ⟨some "N", [], []⟩)
                  (["a"] ++ ["c"]) ([], [("b", [PyVal.int 9])])).2]) :=
  C4_fetch_failure_isolated false
    (fun t => if t = "b" then Option.none else some ⟨some "N", [], []⟩)
    "b" ["a"] ["c"] [] [("b", [PyVal.int 9])]
    (fun _ => Option.none) 0 "start"
    ⟨some "t", "a,b,c"⟩ ⟨Option.none, [("b", [PyVal.int 9])]⟩
    (by decide) (by decide) (by decide) (by decide) (by decide)

/-- C5 counterexample: the claim says a row with a missing ID is skipped
and no operation is emitted for it.  In the code `row.get('id')` returns
`None` without raising, so a mapping row with no id is upserted with a
null id: processing this one-row sheet emits an upsert. -/
theorem C5_counterexample :
    (processSheet false [] "1"
        ⟨some "S", [],
          [Row.dict ⟨PyVal.none, PyVal.none, PyVal.none, PyVal.none, PyVal.none, []⟩]⟩).1
      = [Op.upsert "s"
          [("id", PyVal.none), ("row_number", PyVal.none), ("expanded", PyVal.none),
           ("created_at", PyVal.none), ("modified_at", PyVal.none)]] := rfl

/-- C5 (amended): a row whose processing raises — a row that is not a
mapping, or a row with a malformed cell — is skipped with a logged reason
and no operation is emitted for it, while every row of the collection is
still processed (the emitted upserts are exactly one per row whose
processing completed, in row order).  A mapping row that merely lacks its
ID is not skipped: it is upserted with a null id. -/
theorem C5_skip_raising_rows (mapping : List (Int × String)) (tableName : String)
    (rows : List Row) (rd : RowDict) (h : Cell.bad ∈ rd.cells) :
    (rowLoop mapping tableName rows).2 = upsertOps mapping tableName rows
    ∧ processRow mapping (Row.dict rd) = (some rd.id, Option.none)
    ∧ processRow mapping Row.bad = (Option.none, Option.none) := by
  refine ⟨?_, ?_, rfl⟩
  · rw [rowLoop_eq]
  · simp only [processRow, normalizeCells_none_of_bad mapping rd.cells (baseRecord rd) h]

/-- C5 witness: a sheet whose rows are a non-mapping row and a row with a
malformed cell, at concrete inputs. -/
theorem C5_skip_raising_rows_witness :
    (rowLoop [] "t" [Row.bad]).2 = upsertOps [] "t" [Row.bad]
    ∧ processRow [] (Row.dict ⟨PyVal.int 1, PyVal.none, PyVal.none, PyVal.none,
        PyVal.none, [Cell.bad]⟩) = (some (PyVal.int 1), Option.none)
    ∧ processRow [] Row.bad = (Option.none, Option.none) :=
  C5_skip_raising_rows [] "t" [Row.bad]
    ⟨PyVal.int 1, PyVal.none, PyVal.none, PyVal.none, PyVal.none, [Cell.bad]⟩
    (by decide)

/-- C6: on a run that passes the configuration check, `update` succeeds
and its output is the per-sheet operations followed by exactly one
checkpoint, which is the last operation and carries the cursor computed
at run start (`sync_start`) together with the accumulated `all_ids` map —
regardless of how many fetches failed (the fetch oracle is arbitrary). -/
theorem C6_single_terminal_checkpoint (parse : String → Option Int) (now : Int)
    (sync_start : String) (fetch : String → Option SheetData)
    (cfg : Config) (state : SyncState)
    (htok : truthyStr cfg.smartsheet_api_token = true)
    (hids : sheetIdsOf cfg.smartsheet_sheet_ids ≠ []) :
    update parse now sync_start fetch cfg state
      = Except.ok
          ((runSheets (truthyStr (effectiveCursor parse now state.sync_cursor))
              fetch (sheetIdsOf cfg.smartsheet_sheet_ids) ([], state.all_ids)).1
            ++ [Op.checkpoint sync_start
                (runSheets (truthyStr (effectiveCursor parse now state.sync_cursor))
                  fetch (sheetIdsOf cfg.smartsheet_sheet_ids) ([], state.all_ids)).2])
    ∧ countCheckpoints
        ((runSheets (truthyStr (effectiveCursor parse now state.sync_cursor))
            fetch (sheetIdsOf cfg.smartsheet_sheet_ids) ([], state.all_ids)).1
          ++ [Op.checkpoint sync_start
              (runSheets (truthyStr (effectiveCursor parse now state.sync_cursor))
                fetch (sheetIdsOf cfg.smartsheet_sheet_ids) ([], state.all_ids)).2]) = 1
    ∧ ((runSheets (truthyStr (effectiveCursor parse now state.sync_cursor))
            fetch (sheetIdsOf cfg.smartsheet_sheet_ids) ([], state.all_ids)).1
          ++ [Op.checkpoint sync_start
              (runSheets (truthyStr (effectiveCursor parse now state.sync_cursor))
                fetch (sheetIdsOf cfg.smartsheet_sheet_ids) ([], state.all_ids)).2]).getLast?
        = some (Op.checkpoint sync_start
            (runSheets (truthyStr (effectiveCursor parse now state.sync_cursor))
              fetch (sheetIdsOf cfg.smartsheet_sheet_ids) ([], state.all_ids)).2) := by
  have hcond : ¬(truthyStr cfg.smartsheet_api_token = false
      ∨ sheetIdsOf cfg.smartsheet_sheet_ids = []) := by
    rw [htok]
    simp [hids]
  refine ⟨?_, ?_, ?_⟩
  · simp only [update, if_neg hcond]
  · simp only [countCheckpoints, List.filter_append,
      runSheets_filter_isCheckpoint]
    rfl
  · rw [List.getLast?_concat]

/-- C6 witness: one sheet whose fetch fails, at concrete inputs: the run
emits exactly the terminal checkpoint. -/
theorem C6_single_terminal_checkpoint_witness :
    update (fun _ => Option.none) 0 "start" (fun _ => Option.none)
        ⟨some "t", "a"⟩ ⟨Option.none, []⟩
      = Except.ok
          ((runSheets (truthyStr (effectiveCursor (fun _ => Option.none) 0 Option.none))
              (fun _ => Option.none) (sheetIdsOf "a") ([], [])).1
            ++ [Op.checkpoint "start"
                (runSheets (truthyStr (effectiveCursor (fun _ => Option.none) 0 Option.none))
                  (fun _ => Option.none) (sheetIdsOf "a") ([], [])).2])
    ∧ countCheckpoints
        ((runSheets (truthyStr (effectiveCursor (fun _ => Option.none) 0 Option.none))
            (fun _ => Option.none) (sheetIdsOf "a") ([], [])).1
          ++ [Op.checkpoint "start"
              (runSheets (truthyStr (effectiveCursor (fun _ => Option.none) 0 Option.none))
                (fun _ => Option.none) (sheetIdsOf "a") ([], [])).2]) = 1
    ∧ ((runSheets (truthyStr (effectiveCursor (fun _ => Option.none) 0 Option.none))
            (fun _ => Option.none) (sheetIdsOf "a") ([], [])).1
          ++ [Op.checkpoint "start"
              (runSheets (truthyStr (effectiveCursor (fun _ => Option.none) 0 Option.none))
                (fun _ => Option.none) (sheetIdsOf "a") ([], [])).2]).getLast?
        = some (Op.checkpoint "start"
            (runSheets (truthyStr (effectiveCursor (fun _ => Option.none) 0 Option.none))
              (fun _ => Option.none) (sheetIdsOf "a") ([], [])).2) :=
  C6_single_terminal_checkpoint (fun _ => Option.none) 0 "start"
    (fun _ => Option.none) ⟨some "t", "a"⟩ ⟨Option.none, []⟩
    (by decide) (by decide)

/-- C8 counterexample: three facets at concrete inputs refute the claim
as stated.  (a) A column whose title is the empty string: the cell's
column ID resolves in the mapping (first conjunct), yet the normalized
record gains no entry for it, because the code's `if column_name:` is a
truthiness test.  (b) A column titled `"id"`: the cell's entry overwrites
the row's ID, so the record does not contain the row's ID.  (c) Two
cells with the same column ID: both resolve, but the record holds a
single entry (the later value overwrites the earlier), not one per cell. -/
theorem C8_counterexample :
    (dictGet [((5 : Int), "")] 5 = some ""
      ∧ processRow [((5 : Int), "")]
          (Row.dict ⟨PyVal.int 1, PyVal.none, PyVal.none, PyVal.none, PyVal.none,
            [Cell.cell (some 5) (PyVal.int 9)]⟩)
        = (some (PyVal.int 1),
           some [("id", PyVal.int 1), ("row_number", PyVal.none),
             ("expanded", PyVal.none), ("created_at", PyVal.none),
             ("modified_at", PyVal.none)]))
    ∧ processRow [((5 : Int), "id")]
          (Row.dict ⟨PyVal.int 1, PyVal.none, PyVal.none, PyVal.none, PyVal.none,
            [Cell.cell (some 5) (PyVal.int 9)]⟩)
        = (some (PyVal.int 1),
           some [("id", PyVal.int 9), ("row_number", PyVal.none),
             ("expanded", PyVal.none), ("created_at", PyVal.none),
             ("modified_at", PyVal.none)])
    ∧ processRow [((5 : Int), "a")]
          (Row.dict ⟨PyVal.int 1, PyVal.none, PyVal.none, PyVal.none, PyVal.none,
            [Cell.cell (some 5) (PyVal.int 8), Cell.cell (some 5) (PyVal.int 9)]⟩)
        = (some (PyVal.int 1),
           some [("id", PyVal.int 1), ("row_number", PyVal.none),
             ("expanded", PyVal.none), ("created_at", PyVal.none),
             ("modified_at", PyVal.none), ("a", PyVal.int 9)]) := by
  refine ⟨⟨rfl, rfl⟩, rfl, rfl⟩

/-- C8 (amended): for a row none of whose cells raises, provided the
resolved column names are non-empty, pairwise distinct and distinct from
the five fixed field names, the normalized record is exactly the row's
ID and metadata fields followed by one entry per cell whose column ID
resolves to such a name, in cell order; a cell whose column ID has no
entry in the mapping (or resolves to an empty title) contributes no
field and raises no error. -/
theorem C8_normalized_record (mapping : List (Int × String)) (rd : RowDict)
    (hbad : Cell.bad ∉ rd.cells)
    (hnodup : ((cellEntries mapping rd.cells).map Prod.fst).Nodup)
    (hres : ∀ n ∈ (cellEntries mapping rd.cells).map Prod.fst, n ∉ reservedFields) :
    processRow mapping (Row.dict rd)
      = (some rd.id, some (baseRecord rd ++ cellEntries mapping rd.cells)) := by
  have hfresh : ∀ n ∈ (cellEntries mapping rd.cells).map Prod.fst,
      n ∉ (baseRecord rd).map Prod.fst := by
    intro n hn
    have h := hres n hn
    simpa [baseRecord, reservedFields] using h
  simp only [processRow]
  rw [normalizeCells_of_good mapping rd.cells (baseRecord rd) hbad hnodup hfresh]

/-- C8 witness: a row with one resolvable cell, one cell whose column ID
is not in the mapping and one cell without a column ID, at concrete
inputs. -/
theorem C8_normalized_record_witness :
    processRow [((1 : Int), "a")]
        (Row.dict ⟨PyVal.int 7, PyVal.none, PyVal.none, PyVal.none, PyVal.none,
          [Cell.cell (some 1) (PyVal.int 5), Cell.cell (some 2) (PyVal.int 6),
           Cell.cell Option.none (PyVal.int 4)]⟩)
      = (some (PyVal.int 7),
         some (baseRecord ⟨PyVal.int 7, PyVal.none, PyVal.none, PyVal.none, PyVal.none,
             [Cell.cell (some 1) (PyVal.int 5), Cell.cell (some 2) (PyVal.int 6),
              Cell.cell Option.none (PyVal.int 4)]⟩
           ++ cellEntries [((1 : Int), "a")]
             [Cell.cell (some 1) (PyVal.int 5), Cell.cell (some 2) (PyVal.int 6),
              Cell.cell Option.none (PyVal.int 4)])) :=
  C8_normalized_record [((1 : Int), "a")]
    ⟨PyVal.int 7, PyVal.none, PyVal.none, PyVal.none, PyVal.none,
      [Cell.cell (some 1) (PyVal.int 5), Cell.cell (some 2) (PyVal.int 6),
       Cell.cell Option.none (PyVal.int 4)]⟩
    (by decide) (by decide) (by decide)

/-- C10: a mapping row with a malformed cell raises after its id was read
(line 139): the id is in the observed set, hence in the state entry
recorded at the checkpoint, and no delete for it is ever emitted for
this sheet (in incremental mode there are no deletes, in full mode the
id is excluded from `previous − current`), even though the row's upsert
was never yielded. -/
theorem C10_crashed_row_id_persisted (active : Bool)
    (allIds : List (String × List PyVal)) (sheetId : String)
    (d : SheetData) (rd : RowDict)
    (h1 : Row.dict rd ∈ d.rows) (h2 : Cell.bad ∈ rd.cells) :
    rd.id ∈ observedIds d.rows
    ∧ dictGet (processSheet active allIds sheetId d).2 sheetId
        = some (observedIds d.rows)
    ∧ rd.id ∉ deleteIdsOf (processSheet active allIds sheetId d).1
    ∧ (processRow (mkMapping d) (Row.dict rd)).2 = Option.none := by
  have hobs := mem_observedIds_of_mem d.rows h1
  refine ⟨hobs, ?_, ?_, ?_⟩
  · rw [processSheet_eq]
    exact dictGet_dictSet_self _ _ _
  · rw [processSheet_eq]
    simp only [deleteIdsOf_append, deleteIdsOf_upsertOps, List.nil_append]
    cases active with
    | true => simp [deleteIdsOf]
    | false =>
      simp only [Bool.false_eq_true, if_false, deleteIdsOf_map_delete]
      intro hc
      exact (mem_setDiff.mp hc).2 hobs
  · simp only [processRow,
      normalizeCells_none_of_bad (mkMapping d) rd.cells (baseRecord rd) h2]

/-- C10 witness: a two-row sheet whose second row has a malformed cell,
in full mode with the crashed row's id in the previous state, at
concrete inputs. -/
theorem C10_crashed_row_id_persisted_witness :
    PyVal.int 2 ∈ observedIds
        [Row.dict ⟨PyVal.int 1, PyVal.none, PyVal.none, PyVal.none, PyVal.none, []⟩,
         Row.dict ⟨PyVal.int 2, PyVal.none, PyVal.none, PyVal.none, PyVal.none, [Cell.bad]⟩]
    ∧ dictGet (processSheet false [("x", [PyVal.int 2])] "x"
          ⟨some "X", [],
            [Row.dict ⟨PyVal.int 1, PyVal.none, PyVal.none, PyVal.none, PyVal.none, []⟩,
             Row.dict ⟨PyVal.int 2, PyVal.none, PyVal.none, PyVal.none, PyVal.none, [Cell.bad]⟩]⟩).2 "x"
        = some (observedIds
            [Row.dict ⟨PyVal.int 1, PyVal.none, PyVal.none, PyVal.none, PyVal.none, []⟩,
             Row.dict ⟨PyVal.int 2, PyVal.none, PyVal.none, PyVal.none, PyVal.none, [Cell.bad]⟩])
    ∧ PyVal.int 2 ∉ deleteIdsOf (processSheet false [("x", [PyVal.int 2])] "x"
          ⟨some "X", [],
            [Row.dict ⟨PyVal.int 1, PyVal.none, PyVal.none, PyVal.none, PyVal.none, []⟩,
             Row.dict ⟨PyVal.int 2, PyVal.none, PyVal.none, PyVal.none, PyVal.none, [Cell.bad]⟩]⟩).1
    ∧ (processRow (mkMapping ⟨some "X", [],
          [Row.dict ⟨PyVal.int 1, PyVal.none, PyVal.none, PyVal.none, PyVal.none, []⟩,
           Row.dict ⟨PyVal.int 2, PyVal.none, PyVal.none, PyVal.none, PyVal.none, [Cell.bad]⟩]⟩)
        (Row.dict ⟨PyVal.int 2, PyVal.none, PyVal.none, PyVal.none, PyVal.none, [Cell.bad]⟩)).2
      = Option.none :=
  C10_crashed_row_id_persisted false [("x", [PyVal.int 2])] "x"
    ⟨some "X", [],
      [Row.dict ⟨PyVal.int 1, PyVal.none, PyVal.none, PyVal.none, PyVal.none, []⟩,
       Row.dict ⟨PyVal.int 2, PyVal.none, PyVal.none, PyVal.none, PyVal.none, [Cell.bad]⟩]⟩
    ⟨PyVal.int 2, PyVal.none, PyVal.none, PyVal.none, PyVal.none, [Cell.bad]⟩
    (by decide) (by decide)

end Connector
